import Mathlib

/-!
Verification development for the AI Trilingual Coach content generator
(`worker_lang.py` together with the constants of `config.py`).

The Python code is shallowly embedded: strings are `List Char` (with
`String` wrappers mirroring the Python function names), parsed JSON values
are the inductive `PyVal` (the tagged union produced by `json.loads`,
restricted to integer numerics — the repository's schema uses no floats),
fallible operations return `Option` or `Except`, and the side effects of
the orchestrator (model calls with their temperature, diagnostic saves,
prompt strengthening, validator invocations) are recorded in an explicit
event trace.  The model call itself is abstracted by an oracle mapping the
attempt number to the optional response text, exactly the information the
retry loop consumes.
-/

/-- Generic parsed JSON-like value, as produced by Python's `json.loads`:
`null`, booleans, integers, strings, arrays, objects (insertion-ordered
key/value lists with unique keys). -/
inductive PyVal where
  | null : PyVal
  | bool (b : Bool) : PyVal
  | int (n : Int) : PyVal
  | str (s : String) : PyVal
  | list (items : List PyVal) : PyVal
  | dict (entries : List (String × PyVal)) : PyVal

/-- First-match association lookup, the semantics of Python `dict[k]` /
`dict.get(k)` on our entry lists (parsing keeps keys unique). -/
def lookupKey : List (String × PyVal) → String → Option PyVal
  | [], _ => Option.none
  | (k2, v) :: rest, k => if k2 = k then Option.some v else lookupKey rest k

/-- Python `k in d` for a dict. -/
def hasKey (entries : List (String × PyVal)) (k : String) : Bool :=
  (lookupKey entries k).isSome

/-- Python `dict` update used while parsing a JSON object: replace the value
of an existing key in place, otherwise append (later duplicate keys win). -/
def assocSet : List (String × PyVal) → String → PyVal → List (String × PyVal)
  | [], k, v => [(k, v)]
  | (k2, v2) :: rest, k, v =>
    if k2 = k then (k2, v) :: rest else (k2, v2) :: assocSet rest k v

/-- Python truthiness of a parsed value: `None`, `False`, `0`, `""`, `[]`
and `{}` are falsy, everything else truthy. -/
def pyTruthy : PyVal → Bool
  | PyVal.null => false
  | PyVal.bool b => b
  | PyVal.int n => decide (n ≠ 0)
  | PyVal.str s => decide (s ≠ "")
  | PyVal.list items => !items.isEmpty
  | PyVal.dict entries => !entries.isEmpty

/-- Python truthiness of `data` when it may also be `None`. -/
def pyTruthyOpt : Option PyVal → Bool
  | Option.none => false
  | Option.some v => pyTruthy v

/-- Index of the first occurrence of `pat` in `l`, the semantics of Python
`str.find` (with the -1 sentinel rendered as `none`). -/
def findSub : List Char → List Char → Option Nat
  | l, pat =>
    if pat.isPrefixOf l then Option.some 0
    else
      match l with
      | [] => Option.none
      | _ :: rest => (findSub rest pat).map (· + 1)

/-- Index of the last occurrence of the character `c` in `l`, the semantics
of Python `str.rfind` for a single-character pattern. -/
def rfindChar (l : List Char) (c : Char) : Option Nat :=
  match findSub l.reverse [c] with
  | Option.none => Option.none
  | Option.some i => Option.some (l.length - 1 - i)

/-- Python slice `l[a:b]` for non-negative bounds. -/
def pySlice (l : List Char) (a b : Nat) : List Char :=
  (l.drop a).take (b - a)

/-- Characters treated as whitespace by Python: the predicate behind
`str.strip()`, `str.isspace()` and the regex class backslash-s on `str`
patterns (CPython's `Py_UNICODE_ISSPACE`, i.e. code points of bidirectional
class WS, B or S or of category Zs): U+0009 to U+000D, U+001C to U+0020,
U+0085, U+00A0, U+1680, U+2000 to U+200A, U+2028, U+2029, U+202F, U+205F
and U+3000. -/
def isPySpace (c : Char) : Bool :=
  (9 ≤ c.toNat && c.toNat ≤ 13) || (28 ≤ c.toNat && c.toNat ≤ 32) ||
  c.toNat = 133 || c.toNat = 160 || c.toNat = 5760 ||
  (8192 ≤ c.toNat && c.toNat ≤ 8202) || c.toNat = 8232 || c.toNat = 8233 ||
  c.toNat = 8239 || c.toNat = 8287 || c.toNat = 12288

/-- Python `str.strip()`: drop whitespace from both ends. -/
def pyStrip (l : List Char) : List Char :=
  ((l.dropWhile isPySpace).reverse.dropWhile isPySpace).reverse

/-- Whitespace skipped by the JSON grammar (`json.loads`). -/
def skipWs (l : List Char) : List Char :=
  l.dropWhile (fun c => c = ' ' || c = '\t' || c = '\n' || c = '\r')

/-- Value of a hexadecimal digit, if any. -/
def hexVal (c : Char) : Option Nat :=
  if '0' ≤ c ∧ c ≤ '9' then Option.some (c.toNat - 48)
  else if 'a' ≤ c ∧ c ≤ 'f' then Option.some (c.toNat - 87)
  else if 'A' ≤ c ∧ c ≤ 'F' then Option.some (c.toNat - 55)
  else Option.none

/-- Decode one JSON string escape (the character after the backslash).
Unicode escapes denoting surrogate code points (which Python strings can
hold but Lean characters cannot) are outside this model's scope and
rejected. -/
def decodeEscape (e : Char) (rest : List Char) : Option (Char × List Char) :=
  if e = '"' then Option.some ('"', rest)
  else if e = '\\' then Option.some ('\\', rest)
  else if e = '/' then Option.some ('/', rest)
  else if e = 'b' then Option.some (Char.ofNat 8, rest)
  else if e = 'f' then Option.some (Char.ofNat 12, rest)
  else if e = 'n' then Option.some ('\n', rest)
  else if e = 'r' then Option.some ('\r', rest)
  else if e = 't' then Option.some ('\t', rest)
  else if e = 'u' then
    match rest with
    | h1 :: h2 :: h3 :: h4 :: rest2 =>
      match hexVal h1, hexVal h2, hexVal h3, hexVal h4 with
      | Option.some a, Option.some b, Option.some c, Option.some d =>
        let n := ((a * 16 + b) * 16 + c) * 16 + d
        if 55296 ≤ n ∧ n ≤ 57343 then Option.none
        else Option.some (Char.ofNat n, rest2)
      | _, _, _, _ => Option.none
    | _ => Option.none
  else Option.none

/-- Body of a JSON string literal, after the opening quote; strict mode
rejects raw control characters, as `json.loads` does. -/
def parseStringBody : Nat → List Char → Option (List Char × List Char)
  | 0, _ => Option.none
  | Nat.succ fuel, l =>
    match l with
    | [] => Option.none
    | c :: rest =>
      if c = '"' then Option.some ([], rest)
      else if c = '\\' then
        match rest with
        | [] => Option.none
        | e :: rest2 =>
          match decodeEscape e rest2 with
          | Option.none => Option.none
          | Option.some (d, rest3) =>
            match parseStringBody fuel rest3 with
            | Option.none => Option.none
            | Option.some (cs, rest4) => Option.some (d :: cs, rest4)
      else if c.toNat < 32 then Option.none
      else
        match parseStringBody fuel rest with
        | Option.none => Option.none
        | Option.some (cs, rest4) => Option.some (c :: cs, rest4)

/-- Digits to a natural number. -/
def digitsToNat (ds : List Char) : Nat :=
  ds.foldl (fun acc c => acc * 10 + (c.toNat - 48)) 0

/-- Opening curly brace character. -/
def obrace : Char := Char.ofNat 123

/-- Closing curly brace character. -/
def cbrace : Char := Char.ofNat 125

/-- JSON number at the head of `l` (which starts with a minus sign or a
digit).  The model covers the integer forms used by the repository's
schema; fractional and exponent forms are out of its scope and rejected. -/
def parseNumber (l : List Char) : Option (PyVal × List Char) :=
  let neg : Bool := l.headD ' ' = '-'
  let l1 := if neg then l.tail else l
  let ds := l1.takeWhile Char.isDigit
  let rest := l1.dropWhile Char.isDigit
  if ds.isEmpty then Option.none
  else if 1 < ds.length ∧ ds.headD '0' = '0' then Option.none
  else
    let n : Int := Int.ofNat (digitsToNat ds)
    let v := PyVal.int (if neg then -n else n)
    match rest with
    | c :: _ => if c = '.' ∨ c = 'e' ∨ c = 'E' then Option.none else Option.some (v, rest)
    | [] => Option.some (v, [])

mutual

/-- JSON value at the head of the input (model of `json.loads` descent). -/
def parseValue : Nat → List Char → Option (PyVal × List Char)
  | 0, _ => Option.none
  | Nat.succ fuel, l =>
    match skipWs l with
    | [] => Option.none
    | c :: rest =>
      if c = obrace then parseObjectBody fuel rest
      else if c = '[' then parseArrayBody fuel rest
      else if c = '"' then
        match parseStringBody (Nat.succ fuel) rest with
        | Option.none => Option.none
        | Option.some (cs, rest2) => Option.some (PyVal.str (String.mk cs), rest2)
      else if c = 't' then
        match rest with
        | 'r' :: 'u' :: 'e' :: rest2 => Option.some (PyVal.bool true, rest2)
        | _ => Option.none
      else if c = 'f' then
        match rest with
        | 'a' :: 'l' :: 's' :: 'e' :: rest2 => Option.some (PyVal.bool false, rest2)
        | _ => Option.none
      else if c = 'n' then
        match rest with
        | 'u' :: 'l' :: 'l' :: rest2 => Option.some (PyVal.null, rest2)
        | _ => Option.none
      else if c = '-' ∨ c.isDigit then parseNumber (c :: rest)
      else Option.none

/-- JSON object, after the opening brace has been consumed. -/
def parseObjectBody : Nat → List Char → Option (PyVal × List Char)
  | 0, _ => Option.none
  | Nat.succ fuel, l =>
    match skipWs l with
    | c :: rest =>
      if c = cbrace then Option.some (PyVal.dict [], rest)
      else parseMembers fuel (c :: rest) []
    | [] => Option.none

/-- Comma-separated object members (later duplicate keys overwrite). -/
def parseMembers : Nat → List Char → List (String × PyVal) → Option (PyVal × List Char)
  | 0, _, _ => Option.none
  | Nat.succ fuel, l, acc =>
    match skipWs l with
    | '"' :: rest =>
      match parseStringBody (Nat.succ fuel) rest with
      | Option.none => Option.none
      | Option.some (kcs, rest2) =>
        match skipWs rest2 with
        | ':' :: rest3 =>
          match parseValue fuel rest3 with
          | Option.none => Option.none
          | Option.some (v, rest4) =>
            let acc2 := assocSet acc (String.mk kcs) v
            match skipWs rest4 with
            | ',' :: rest5 => parseMembers fuel rest5 acc2
            | d :: rest5 =>
              if d = cbrace then Option.some (PyVal.dict acc2, rest5) else Option.none
            | [] => Option.none
        | _ => Option.none
    | _ => Option.none

/-- JSON array, after the opening bracket has been consumed. -/
def parseArrayBody : Nat → List Char → Option (PyVal × List Char)
  | 0, _ => Option.none
  | Nat.succ fuel, l =>
    match skipWs l with
    | c :: rest =>
      if c = ']' then Option.some (PyVal.list [], rest)
      else parseElems fuel (c :: rest) []
    | [] => Option.none

/-- Comma-separated array elements. -/
def parseElems : Nat → List Char → List PyVal → Option (PyVal × List Char)
  | 0, _, _ => Option.none
  | Nat.succ fuel, l, acc =>
    match parseValue fuel l with
    | Option.none => Option.none
    | Option.some (v, rest) =>
      match skipWs rest with
      | ',' :: rest2 => parseElems fuel rest2 (acc ++ [v])
      | ']' :: rest2 => Option.some (PyVal.list (acc ++ [v]), rest2)
      | _ => Option.none

end

/-- Model of Python `json.loads`: parse one value and require only
whitespace to remain (otherwise `json.loads` raises "Extra data", which the
extractor turns into a `None` result).  The fuel is ample for the input
length, since every recursion level consumes input; the model covers
inputs whose nesting the interpreter parses within its recursion limit. -/
def parseJsonL (l : List Char) : Option PyVal :=
  match parseValue (4 * (l.length + 1)) l with
  | Option.some (v, rest) => if (skipWs rest).isEmpty then Option.some v else Option.none
  | Option.none => Option.none

/-- Backtick character. -/
def backtick : Char := Char.ofNat 96

/-- Left curly double quotation mark. -/
def ldquo : Char := Char.ofNat 8220

/-- Right curly double quotation mark. -/
def rdquo : Char := Char.ofNat 8221

/-- Left curly single quotation mark. -/
def lsquo : Char := Char.ofNat 8216

/-- Right curly single quotation mark. -/
def rsquo : Char := Char.ofNat 8217

/-- Horizontal ellipsis glyph. -/
def hellip : Char := Char.ofNat 8230

/-- ASCII apostrophe character. -/
def apos : Char := Char.ofNat 39

/-- Word character of the regex class backslash-w, modelled on the ASCII
range (Python also counts non-ASCII Unicode alphanumerics).  The fence
regex consults this class only for the language tag directly after a
literal triple backtick, and any such match deletes the backticks
themselves, so a candidate on which the model's cleanup acts as the
identity contains no triple backtick and the class is never consulted on
it; theorems conditioned on cleanup-invariance therefore do not depend on
the ASCII restriction, and the backtick-free side condition is also stated
explicitly where it matters. -/
def isWordChar (c : Char) : Bool :=
  (('a' ≤ c && c ≤ 'z') || ('A' ≤ c && c ≤ 'Z') || c.isDigit || c = '_')

/-- Left-to-right scan for the first fence-removal pass, the regex
substitution deleting a triple backtick, an optional language tag of word
characters and an optional newline.  Fuel equal to the input length is
ample since every step consumes at least one character. -/
def removeFencesGo : Nat → List Char → List Char
  | 0, l => l
  | Nat.succ fuel, l =>
    match l with
    | [] => []
    | c :: rest =>
      if c = backtick ∧ rest.take 2 = [backtick, backtick] then
        let afterTag := (rest.drop 2).dropWhile isWordChar
        match afterTag with
        | nl :: r => if nl = '\n' then removeFencesGo fuel r else removeFencesGo fuel afterTag
        | [] => []
      else c :: removeFencesGo fuel rest

/-- First cleanup pass of `_clean_json_text`: delete markdown code fence
openers and closers. -/
def removeFences (l : List Char) : List Char :=
  removeFencesGo l.length l

/-- Left-to-right non-overlapping deletion of a fixed non-empty pattern,
the semantics of both the second fence regex pass and of Python
`str.replace(pat, "")`. -/
def removeAllGo (pat : List Char) : Nat → List Char → List Char
  | 0, l => l
  | Nat.succ fuel, l =>
    match l with
    | [] => []
    | c :: rest =>
      if pat.isPrefixOf l then removeAllGo pat fuel (l.drop pat.length)
      else c :: removeAllGo pat fuel rest

/-- Delete every occurrence of `pat` in `l`. -/
def removeAll (pat l : List Char) : List Char :=
  removeAllGo pat l.length l

/-- Quote normalization of `_clean_json_text`: curly double quotes become
straight double quotes, curly single quotes become apostrophes. -/
def normalizeQuoteChar (c : Char) : Char :=
  if c = ldquo ∨ c = rdquo then '"'
  else if c = rsquo ∨ c = lsquo then apos
  else c

/-- Quote-normalization pass over the whole candidate. -/
def normalizeQuotes (l : List Char) : List Char :=
  l.map normalizeQuoteChar

/-- Ellipsis removal pass: delete every three-dot sequence, then every
ellipsis glyph. -/
def removeEllipses (l : List Char) : List Char :=
  (removeAll ['.', '.', '.'] l).filter (fun c => !(c = hellip))

/-- Whitespace class backslash-s of the trailing-comma regex.  On `str`
patterns CPython's regex engine classifies whitespace with the same
`Py_UNICODE_ISSPACE` predicate as `str.strip()`, so the class is exactly
`isPySpace`. -/
def isRegexSpace (c : Char) : Bool :=
  isPySpace c

/-- Left-to-right scan deleting a comma that is followed by optional
whitespace and a closing brace or bracket, keeping the whitespace and the
closer (the regex substitution keeping group 1). -/
def removeTrailingCommasGo : Nat → List Char → List Char
  | 0, l => l
  | Nat.succ fuel, l =>
    match l with
    | [] => []
    | c :: rest =>
      if c = ',' then
        match rest.dropWhile isRegexSpace with
        | d :: rest2 =>
          if d = cbrace ∨ d = ']' then
            rest.takeWhile isRegexSpace ++ d :: removeTrailingCommasGo fuel rest2
          else c :: removeTrailingCommasGo fuel rest
        | [] => c :: removeTrailingCommasGo fuel rest
      else c :: removeTrailingCommasGo fuel rest

/-- Trailing-comma removal pass. -/
def removeTrailingCommas (l : List Char) : List Char :=
  removeTrailingCommasGo l.length l

/-- Control characters stripped by `_clean_json_text` (C0 range except
tab, newline and carriage return). -/
def isBannedControl (c : Char) : Bool :=
  c.toNat ≤ 8 || c.toNat = 11 || c.toNat = 12 || (14 ≤ c.toNat && c.toNat ≤ 31)

/-- Control-character removal pass. -/
def removeControlChars (l : List Char) : List Char :=
  l.filter (fun c => !isBannedControl c)

/-- Brace and bracket balancing repair of `_clean_json_text`: if opening
braces outnumber closing braces, append the missing closing braces; then do
the same independently for square brackets. -/
def balanceBracketsL (l : List Char) : List Char :=
  let ob := l.count obrace
  let cb := l.count cbrace
  let l1 := if cb < ob then l ++ List.replicate (ob - cb) cbrace else l
  let osq := l1.count '['
  let csq := l1.count ']'
  if csq < osq then l1 ++ List.replicate (osq - csq) ']' else l1

/-- Balancing repair on a `String` (wrapper used by the theorems about
the repair in isolation). -/
def balanceBrackets (s : String) : String :=
  String.mk (balanceBracketsL s.data)

/-- Embedding of `AIContentGenerator._clean_json_text`: the cleanup passes
in source order — fences, quotes, ellipses, trailing commas, control
characters, balancing, final strip. -/
def cleanJsonTextL (l : List Char) : List Char :=
  pyStrip (balanceBracketsL (removeControlChars (removeTrailingCommas
    (removeEllipses (normalizeQuotes (removeAll [backtick, backtick, backtick]
      (removeFences l)))))))

/-- Embedding of `_clean_json_text` on a `String`. -/
def clean_json_text (s : String) : String :=
  String.mk (cleanJsonTextL s.data)

/-- Start sentinel marker used by the prompt contract. -/
def startMarker : List Char := "<<<JSON_START>>>".data

/-- End sentinel marker used by the prompt contract. -/
def endMarker : List Char := "<<<JSON_END>>>".data

/-- Embedding of `AIContentGenerator.extract_json_from_response`: take the
candidate between the sentinel markers (stripped) when both are found,
otherwise the span from the first opening brace to the last closing brace;
clean it and parse it.  Any parse error is a `None` result. -/
def extractJsonL (text : List Char) : Option PyVal :=
  match findSub text startMarker, findSub text endMarker with
  | Option.some i, Option.some j =>
    parseJsonL (cleanJsonTextL (pyStrip (pySlice text (i + startMarker.length) j)))
  | _, _ =>
    match findSub text [obrace], rfindChar text cbrace with
    | Option.some i, Option.some j => parseJsonL (cleanJsonTextL (pySlice text i (j + 1)))
    | _, _ => Option.none

/-- Extractor on a `String`. -/
def extract_json_from_response (s : String) : Option PyVal :=
  extractJsonL s.data

/-- Required top-level keys checked by `validate_response_data`. -/
def requiredKeys : List String := ["theme", "vocabulary_focus", "practice_scenarios", "quiz_toggle"]

/-- Python membership `k in v` on a parsed value: key membership for a
dict, element equality for a list, substring test for a string; on other
values Python raises a `TypeError`, modelled as an error. -/
def pyContains (k : String) : PyVal → Except String Bool
  | PyVal.dict entries => Except.ok (hasKey entries k)
  | PyVal.list items =>
    Except.ok (items.any (fun x => match x with | PyVal.str s => decide (s = k) | _ => false))
  | PyVal.str s => Except.ok (findSub s.data k.data).isSome
  | _ => Except.error "TypeError: argument is not iterable"

/-- Required-key loop of `validate_response_data`: return `false` at the
first absent key, propagate a raised `TypeError`. -/
def checkRequiredKeys : List String → PyVal → Except String Bool
  | [], _ => Except.ok true
  | k :: rest, v =>
    match pyContains k v with
    | Except.error e => Except.error e
    | Except.ok b => if b then checkRequiredKeys rest v else Except.ok false

/-- Item test of the `vocabulary_focus` loop: a dictionary carrying both
`concept` and `expressions`. -/
def vocabItemOk : PyVal → Bool
  | PyVal.dict d => hasKey d "concept" && hasKey d "expressions"
  | _ => false

/-- Item test of the `quiz_toggle` loop: a dictionary carrying both
`question` and `answer`. -/
def quizItemOk : PyVal → Bool
  | PyVal.dict d => hasKey d "question" && hasKey d "answer"
  | _ => false

/-- Structure checks of `validate_response_data` after the required-key
loop, for a dict payload: `vocabulary_focus` must be a non-empty list of
valid items, `quiz_toggle` a (possibly empty) list of valid items. -/
def validateDict (entries : List (String × PyVal)) : Bool :=
  match (lookupKey entries "vocabulary_focus").getD (PyVal.list []) with
  | PyVal.list vitems =>
    if vitems.isEmpty then false
    else if vitems.all vocabItemOk then
      match (lookupKey entries "quiz_toggle").getD (PyVal.list []) with
      | PyVal.list qitems => qitems.all quizItemOk
      | _ => false
    else false
  | _ => false

/-- Embedding of `AIContentGenerator.validate_response_data`.  The boolean
verdict of the Python function is `Except.ok`; an exception raised on a
non-dict payload (whose `.get` attribute access fails after the membership
loop) is `Except.error` and is caught by the orchestrator's outer handler. -/
def validate_response_data (v : PyVal) : Except String Bool :=
  match checkRequiredKeys requiredKeys v with
  | Except.error e => Except.error e
  | Except.ok false => Except.ok false
  | Except.ok true =>
    match v with
    | PyVal.dict entries => Except.ok (validateDict entries)
    | _ => Except.error "AttributeError: no attribute get"

/-- Fixed short-code lookup of `select_daily_theme`. -/
def theme_mapping : List (String × String) :=
  [("work", "Office Communication"), ("life", "Daily Life"), ("tech", "Technology & Development")]

/-- First-match lookup on the fixed mapping (`dict.get(theme, theme)`). -/
def lookupStr : List (String × String) → String → Option String
  | [], _ => Option.none
  | (k2, label) :: rest, k => if k2 = k then Option.some label else lookupStr rest k

/-- Mapping application with pass-through of unrecognized codes. -/
def themeLabel (t : String) : String :=
  match lookupStr theme_mapping t with
  | Option.some label => label
  | Option.none => t

/-- Embedding of `AIContentGenerator.select_daily_theme`, with the current
day of month and the configured rotation as explicit arguments: pick the
rotation entry at index `day % length`, strip it, map it through the fixed
lookup.  Defined for a non-empty rotation (Python divides by the length). -/
def select_daily_theme (day : Nat) (rotation : List String) : String :=
  themeLabel (String.mk (pyStrip ((rotation.getD (day % rotation.length) "").data)))

/-- Default `THEME_ROTATION` of `config.py`. -/
def THEME_ROTATION : List String := ["work", "life", "tech"]

/-- Temperature schedule of the retry loop in `generate_daily_content`:
`0.7 if attempt == 1 else 0.0`. -/
def tempForAttempt (n : Nat) : ℚ := if n = 1 then 7 / 10 else 0

/-- Observable side effects of one orchestrator invocation: a model call
with its attempt number and temperature, a best-effort raw-response save, a
prompt strengthening for the next attempt, a validator invocation. -/
inductive Event where
  | modelCall (attempt : Nat) (temp : ℚ) : Event
  | savedRaw (text : String) : Event
  | promptStrengthened : Event
  | validatorCalled (v : PyVal) : Event

/-- Retry loop of `generate_daily_content` over the remaining attempt
numbers.  The model is abstracted by an oracle from attempt number to the
optional response text; `data` is the current value of the loop variable
(`None` before any parse).  A missing or empty response is skipped
(`continue`); an extraction result that is falsy (parse failure, or a falsy
parsed value such as the empty object) triggers the diagnostic save and the
prompt strengthening; a truthy extraction breaks out of the loop. -/
def attemptLoop (oracle : Nat → Option String) :
    List Nat → Option PyVal → List Event → (Option PyVal × List Event)
  | [], data, tr => (data, tr)
  | n :: rest, data, tr =>
    let tr1 := tr ++ [Event.modelCall n (tempForAttempt n)]
    match oracle n with
    | Option.none => attemptLoop oracle rest data tr1
    | Option.some text =>
      if text = "" then attemptLoop oracle rest data tr1
      else
        let d := extract_json_from_response text
        if pyTruthyOpt d then (d, tr1)
        else attemptLoop oracle rest d (tr1 ++ [Event.savedRaw text, Event.promptStrengthened])

/-- Embedding of `AIContentGenerator.generate_daily_content`: run the
three-attempt retry loop, reject a falsy final value, then validate; a
validation verdict of `false`, like an exception caught by the outer
handler, yields the explicit no-content result `None`. -/
def generate_daily_content (oracle : Nat → Option String) : Option PyVal × List Event :=
  match attemptLoop oracle [1, 2, 3] Option.none [] with
  | (data, tr) =>
    match data with
    | Option.none => (Option.none, tr)
    | Option.some v =>
      if pyTruthy v then
        let tr2 := tr ++ [Event.validatorCalled v]
        match validate_response_data v with
        | Except.ok true => (Option.some v, tr2)
        | _ => (Option.none, tr2)
      else (Option.none, tr)

/-- Attempt/temperature pairs of the model calls recorded in a trace. -/
def modelCalls (tr : List Event) : List (Nat × ℚ) :=
  tr.filterMap (fun e => match e with
    | Event.modelCall n t => Option.some (n, t)
    | _ => Option.none)

/-- Predicate of the C6 claim, from the spec's words: `vocabulary_focus` is
rejected when it is not a sequence, is empty, or contains an item lacking
`concept` or `expressions`. -/
def vocabBad : PyVal → Bool
  | PyVal.list items => items.isEmpty || !(items.all vocabItemOk)
  | _ => true

/-- Predicate of the C7 claim, from the spec's words: `quiz_toggle` is
rejected when it is not a sequence or contains an item lacking `question`
or `answer`. -/
def quizBad : PyVal → Bool
  | PyVal.list items => !(items.all quizItemOk)
  | _ => true

/-- Theme selection as worded by the spec, for comparison with the source
embedding: compute `index = day_of_month mod length(rotation)`, pick
`rotation[index]`, trim whitespace, map known short codes through the fixed
lookup, pass unknown codes through. -/
def themeSelectSpec (day : Nat) (rotation : List String) : String :=
  let index := day % rotation.length
  let code := String.mk (pyStrip (rotation.getD index "").data)
  match lookupStr theme_mapping code with
  | Option.some label => label
  | Option.none => code

/-- Response text whose candidate parses but fails schema validation. -/
def badText : String := "\x7b\"x\": 1\x7d"

/-- Parse of `badText`: a truthy object without the required keys. -/
def badVal : PyVal := PyVal.dict [("x", PyVal.int 1)]

/-- Response text whose candidate parses and passes schema validation. -/
def goodText : String := "\x7b\"theme\": \"T\", \"vocabulary_focus\": [\x7b\"concept\": \"c\", \"expressions\": \"e\"\x7d], \"practice_scenarios\": \"p\", \"quiz_toggle\": []\x7d"

/-- Parse of `goodText`. -/
def goodVal : PyVal :=
  PyVal.dict [("theme", PyVal.str "T"),
    ("vocabulary_focus", PyVal.list [PyVal.dict [("concept", PyVal.str "c"), ("expressions", PyVal.str "e")]]),
    ("practice_scenarios", PyVal.str "p"),
    ("quiz_toggle", PyVal.list [])]

/-- Oracle whose first attempt parses but fails validation and whose later
attempts would return fully valid content. -/
def oracleInvalidThenValid : Nat → Option String :=
  fun n => if n = 1 then Option.some badText else Option.some goodText

/-- Oracle whose first attempt is an invalid-object response and whose
later attempts yield no response. -/
def oracleInvalidOnly : Nat → Option String :=
  fun n => if n = 1 then Option.some badText else Option.none

/-- Oracle whose first attempt is the empty JSON object and whose later
attempts yield no response. -/
def oracleEmptyObject : Nat → Option String :=
  fun n => if n = 1 then Option.some "\x7b\x7d" else Option.none

/-- Raw response wrapping well-formed JSON that contains an ellipsis value
between the sentinel markers, surrounded by prose. -/
def textSentinelEllipsis : String :=
  "ok <<<JSON_START>>>\x7b\"a\": \"...\"\x7d<<<JSON_END>>> bye"

theorem attemptLoop_nil (oracle : Nat → Option String) (data : Option PyVal) (tr : List Event) :
    attemptLoop oracle [] data tr = (data, tr) := rfl

theorem attemptLoop_cons_none (oracle : Nat → Option String) (n : Nat) (rest : List Nat)
    (data : Option PyVal) (tr : List Event) (h : oracle n = Option.none) :
    attemptLoop oracle (n :: rest) data tr =
      attemptLoop oracle rest data (tr ++ [Event.modelCall n (tempForAttempt n)]) := by
  simp only [attemptLoop, h]

theorem attemptLoop_cons_empty (oracle : Nat → Option String) (n : Nat) (rest : List Nat)
    (data : Option PyVal) (tr : List Event) (h : oracle n = Option.some "") :
    attemptLoop oracle (n :: rest) data tr =
      attemptLoop oracle rest data (tr ++ [Event.modelCall n (tempForAttempt n)]) := by
  simp [attemptLoop, h]

theorem attemptLoop_cons_falsy (oracle : Nat → Option String) (n : Nat) (rest : List Nat)
    (data : Option PyVal) (tr : List Event) (t : String) (h : oracle n = Option.some t)
    (ht : ¬ t = "") (hd : pyTruthyOpt (extract_json_from_response t) = false) :
    attemptLoop oracle (n :: rest) data tr =
      attemptLoop oracle rest (extract_json_from_response t)
        ((tr ++ [Event.modelCall n (tempForAttempt n)]) ++
          [Event.savedRaw t, Event.promptStrengthened]) := by
  simp only [attemptLoop, h, if_neg ht, hd, Bool.false_eq_true, if_false]

theorem attemptLoop_cons_truthy (oracle : Nat → Option String) (n : Nat) (rest : List Nat)
    (data : Option PyVal) (tr : List Event) (t : String) (h : oracle n = Option.some t)
    (ht : ¬ t = "") (hd : pyTruthyOpt (extract_json_from_response t) = true) :
    attemptLoop oracle (n :: rest) data tr =
      (extract_json_from_response t, tr ++ [Event.modelCall n (tempForAttempt n)]) := by
  simp only [attemptLoop, h, if_neg ht, hd, if_true]

theorem attemptLoop_trace_mono (oracle : Nat → Option String) (e : Event) :
    ∀ (ns : List Nat) (data : Option PyVal) (tr : List Event),
      e ∈ tr → e ∈ (attemptLoop oracle ns data tr).2 := by
  intro ns
  induction ns with
  | nil => intro data tr h; simpa [attemptLoop_nil] using h
  | cons n rest ih =>
    intro data tr h
    cases horacle : oracle n with
    | none =>
      rw [attemptLoop_cons_none oracle n rest data tr horacle]
      exact ih data _ (List.mem_append_left _ h)
    | some t =>
      by_cases ht : t = ""
      · subst ht
        rw [attemptLoop_cons_empty oracle n rest data tr horacle]
        exact ih data _ (List.mem_append_left _ h)
      · cases hd : pyTruthyOpt (extract_json_from_response t) with
        | true =>
          rw [attemptLoop_cons_truthy oracle n rest data tr t horacle ht hd]
          exact List.mem_append_left _ h
        | false =>
          rw [attemptLoop_cons_falsy oracle n rest data tr t horacle ht hd]
          exact ih _ _ (List.mem_append_left _ (List.mem_append_left _ h))

theorem attemptLoop_no_validatorCalled (oracle : Nat → Option String) (v : PyVal) :
    ∀ (ns : List Nat) (data : Option PyVal) (tr : List Event),
      Event.validatorCalled v ∈ (attemptLoop oracle ns data tr).2 →
        Event.validatorCalled v ∈ tr := by
  intro ns
  induction ns with
  | nil => intro data tr h; simpa [attemptLoop_nil] using h
  | cons n rest ih =>
    intro data tr h
    cases horacle : oracle n with
    | none =>
      rw [attemptLoop_cons_none oracle n rest data tr horacle] at h
      have h2 := ih data _ h
      rcases List.mem_append.mp h2 with h3 | h3
      · exact h3
      · simp at h3
    | some t =>
      by_cases ht : t = ""
      · subst ht
        rw [attemptLoop_cons_empty oracle n rest data tr horacle] at h
        have h2 := ih data _ h
        rcases List.mem_append.mp h2 with h3 | h3
        · exact h3
        · simp at h3
      · cases hd : pyTruthyOpt (extract_json_from_response t) with
        | true =>
          rw [attemptLoop_cons_truthy oracle n rest data tr t horacle ht hd] at h
          rcases List.mem_append.mp h with h3 | h3
          · exact h3
          · simp at h3
        | false =>
          rw [attemptLoop_cons_falsy oracle n rest data tr t horacle ht hd] at h
          have h2 := ih _ _ h
          rcases List.mem_append.mp h2 with h3 | h3
          · rcases List.mem_append.mp h3 with h4 | h4
            · exact h4
            · simp at h4
          · simp at h3

theorem modelCalls_append (tr1 tr2 : List Event) :
    modelCalls (tr1 ++ tr2) = modelCalls tr1 ++ modelCalls tr2 := by
  simp [modelCalls, List.filterMap_append]

theorem attemptLoop_modelCalls (oracle : Nat → Option String) :
    ∀ (ns : List Nat) (data : Option PyVal) (tr : List Event),
      ∃ k, modelCalls (attemptLoop oracle ns data tr).2 =
        modelCalls tr ++ (ns.map (fun n => (n, tempForAttempt n))).take k := by
  intro ns
  induction ns with
  | nil => intro data tr; exact ⟨0, by simp [attemptLoop_nil]⟩
  | cons n rest ih =>
    intro data tr
    have hstep : modelCalls (tr ++ [Event.modelCall n (tempForAttempt n)]) =
        modelCalls tr ++ [(n, tempForAttempt n)] := by
      rw [modelCalls_append]; rfl
    cases horacle : oracle n with
    | none =>
      rw [attemptLoop_cons_none oracle n rest data tr horacle]
      obtain ⟨k, hk⟩ := ih data (tr ++ [Event.modelCall n (tempForAttempt n)])
      refine ⟨k + 1, ?_⟩
      rw [hk, hstep]
      simp [List.take_cons]
    | some t =>
      by_cases ht : t = ""
      · subst ht
        rw [attemptLoop_cons_empty oracle n rest data tr horacle]
        obtain ⟨k, hk⟩ := ih data (tr ++ [Event.modelCall n (tempForAttempt n)])
        refine ⟨k + 1, ?_⟩
        rw [hk, hstep]
        simp [List.take_cons]
      · cases hd : pyTruthyOpt (extract_json_from_response t) with
        | true =>
          rw [attemptLoop_cons_truthy oracle n rest data tr t horacle ht hd]
          refine ⟨1, ?_⟩
          simpa [List.take_cons] using hstep
        | false =>
          rw [attemptLoop_cons_falsy oracle n rest data tr t horacle ht hd]
          obtain ⟨k, hk⟩ := ih (extract_json_from_response t)
            ((tr ++ [Event.modelCall n (tempForAttempt n)]) ++
              [Event.savedRaw t, Event.promptStrengthened])
          refine ⟨k + 1, ?_⟩
          rw [hk, modelCalls_append, hstep]
          have : modelCalls [Event.savedRaw t, Event.promptStrengthened] = [] := rfl
          rw [this]
          simp [List.take_cons]

theorem attemptLoop_head_modelCall (oracle : Nat → Option String) (n : Nat) (rest : List Nat)
    (data : Option PyVal) (tr : List Event) :
    Event.modelCall n (tempForAttempt n) ∈ (attemptLoop oracle (n :: rest) data tr).2 := by
  have hmem : Event.modelCall n (tempForAttempt n) ∈
      tr ++ [Event.modelCall n (tempForAttempt n)] := by simp
  cases horacle : oracle n with
  | none =>
    rw [attemptLoop_cons_none oracle n rest data tr horacle]
    exact attemptLoop_trace_mono oracle _ rest data _ hmem
  | some t =>
    by_cases ht : t = ""
    · subst ht
      rw [attemptLoop_cons_empty oracle n rest data tr horacle]
      exact attemptLoop_trace_mono oracle _ rest data _ hmem
    · cases hd : pyTruthyOpt (extract_json_from_response t) with
      | true =>
        rw [attemptLoop_cons_truthy oracle n rest data tr t horacle ht hd]
        exact hmem
      | false =>
        rw [attemptLoop_cons_falsy oracle n rest data tr t horacle ht hd]
        exact attemptLoop_trace_mono oracle _ rest _ _ (List.mem_append_left _ hmem)

theorem gdc_some_truthy (oracle : Nat → Option String) (v : PyVal)
    (h : (generate_daily_content oracle).1 = Option.some v) : pyTruthy v = true := by
  unfold generate_daily_content at h
  rcases halp : attemptLoop oracle [1, 2, 3] Option.none [] with ⟨data, tr⟩
  rw [halp] at h
  cases data with
  | none => simp at h
  | some w =>
    by_cases ht : pyTruthy w
    · simp only [ht, if_true] at h
      cases hval : validate_response_data w with
      | error e => rw [hval] at h; simp at h
      | ok b =>
        cases b with
        | true => rw [hval] at h; simp at h; rw [← h]; exact ht
        | false => rw [hval] at h; simp at h
    · simp only [ht, if_false] at h
      simp at h

theorem balanceBracketsL_closed_form (l : List Char) (a b : Nat)
    (hb : l.count obrace = l.count cbrace + a)
    (hk : l.count '[' = l.count ']' + b) :
    balanceBracketsL l = (l ++ List.replicate a cbrace) ++ List.replicate b ']' := by
  unfold balanceBracketsL
  dsimp only
  have h1 : (if l.count cbrace < l.count obrace
      then l ++ List.replicate (l.count obrace - l.count cbrace) cbrace else l) =
      l ++ List.replicate a cbrace := by
    rcases Nat.eq_zero_or_pos a with ha | ha
    · rw [ha, if_neg (by omega)]
      simp
    · rw [if_pos (by omega)]
      congr 2
      omega
  rw [h1]
  have hsq1 : (l ++ List.replicate a cbrace).count '[' = l.count '[' := by
    simp [List.count_append, List.count_replicate,
      show (cbrace == '[') = false from by decide]
  have hsq2 : (l ++ List.replicate a cbrace).count ']' = l.count ']' := by
    simp [List.count_append, List.count_replicate,
      show (cbrace == ']') = false from by decide]
  rw [hsq1, hsq2]
  rcases Nat.eq_zero_or_pos b with hb0 | hb0
  · rw [hb0, if_neg (by omega)]
    simp
  · rw [if_pos (by omega)]
    congr 2
    omega

theorem checkRequiredKeys_cons_dict (k : String) (rest : List String)
    (entries : List (String × PyVal)) :
    checkRequiredKeys (k :: rest) (PyVal.dict entries) =
      if hasKey entries k then checkRequiredKeys rest (PyVal.dict entries)
      else Except.ok false := by
  simp only [checkRequiredKeys, pyContains]

theorem checkRequiredKeys_dict_missing (entries : List (String × PyVal)) (ks : List String)
    (h : ∃ k ∈ ks, hasKey entries k = false) :
    checkRequiredKeys ks (PyVal.dict entries) = Except.ok false := by
  induction ks with
  | nil => obtain ⟨k, hk, _⟩ := h; simp at hk
  | cons k0 rest ih =>
    rw [checkRequiredKeys_cons_dict]
    by_cases h0 : hasKey entries k0 = true
    · rw [if_pos h0]
      apply ih
      obtain ⟨k, hk, habs⟩ := h
      rcases List.mem_cons.mp hk with heq | hmem
      · rw [heq] at habs; rw [h0] at habs; cases habs
      · exact ⟨k, hmem, habs⟩
    · rw [if_neg h0]

theorem checkRequiredKeys_dict_all (entries : List (String × PyVal)) (ks : List String)
    (h : ∀ k ∈ ks, hasKey entries k = true) :
    checkRequiredKeys ks (PyVal.dict entries) = Except.ok true := by
  induction ks with
  | nil => rfl
  | cons k0 rest ih =>
    rw [checkRequiredKeys_cons_dict, if_pos (h k0 (by simp))]
    exact ih (fun k hk => h k (by simp [hk]))

theorem validate_dict_checked (entries : List (String × PyVal))
    (h : checkRequiredKeys requiredKeys (PyVal.dict entries) = Except.ok true) :
    validate_response_data (PyVal.dict entries) = Except.ok (validateDict entries) := by
  unfold validate_response_data
  rw [h]

/-- C5: the Validator rejects every parsed object from which any one of the
four required top-level keys `theme`, `vocabulary_focus`,
`practice_scenarios`, `quiz_toggle` is absent; no partially complete object
is accepted. -/
theorem c5_validator_rejects_missing_key (entries : List (String × PyVal)) (k : String)
    (hk : k ∈ requiredKeys) (habs : hasKey entries k = false) :
    validate_response_data (PyVal.dict entries) = Except.ok false := by
  have h := checkRequiredKeys_dict_missing entries requiredKeys ⟨k, hk, habs⟩
  unfold validate_response_data
  rw [h]

/-- C5 witness: an object carrying only `vocabulary_focus` is missing
`theme` and is rejected. -/
theorem c5_witness :
    ("theme" ∈ requiredKeys ∧
      hasKey [("vocabulary_focus", PyVal.list [])] "theme" = false) ∧
    validate_response_data (PyVal.dict [("vocabulary_focus", PyVal.list [])]) =
      Except.ok false :=
  ⟨⟨by decide, by decide⟩,
    c5_validator_rejects_missing_key _ "theme" (by decide) (by decide)⟩

/-- C6: for every parsed object containing all four required keys, the
Validator rejects it whenever `vocabulary_focus` is not a sequence, is an
empty sequence, or contains an element that is not a keyed record or lacks
`concept` or `expressions`. -/
theorem c6_validator_rejects_bad_vocabulary (entries : List (String × PyVal)) (v : PyVal)
    (hkeys : ∀ k ∈ requiredKeys, hasKey entries k = true)
    (hv : lookupKey entries "vocabulary_focus" = Option.some v)
    (hbad : vocabBad v = true) :
    validate_response_data (PyVal.dict entries) = Except.ok false := by
  rw [validate_dict_checked entries (checkRequiredKeys_dict_all entries requiredKeys hkeys)]
  have hvd : validateDict entries = false := by
    unfold validateDict
    rw [hv, Option.getD_some]
    cases v with
    | list items =>
      by_cases hemp : items.isEmpty = true
      · simp [hemp]
      · have hall : items.all vocabItemOk = false := by
          simp only [vocabBad, Bool.or_eq_true] at hbad
          rcases hbad with h1 | h1
          · exact absurd h1 hemp
          · simpa using h1
        simp [hemp, hall]
    | null => rfl
    | bool b => rfl
    | int n => rfl
    | str s => rfl
    | dict d => rfl
  rw [hvd]

/-- C6 witness: an object with all four keys whose `vocabulary_focus` is an
empty list is rejected. -/
theorem c6_witness :
    ((∀ k ∈ requiredKeys, hasKey
        [("theme", PyVal.str "T"), ("vocabulary_focus", PyVal.list []),
         ("practice_scenarios", PyVal.str "p"), ("quiz_toggle", PyVal.list [])] k = true) ∧
      lookupKey
        [("theme", PyVal.str "T"), ("vocabulary_focus", PyVal.list []),
         ("practice_scenarios", PyVal.str "p"), ("quiz_toggle", PyVal.list [])]
        "vocabulary_focus" = Option.some (PyVal.list []) ∧
      vocabBad (PyVal.list []) = true) ∧
    validate_response_data (PyVal.dict
      [("theme", PyVal.str "T"), ("vocabulary_focus", PyVal.list []),
       ("practice_scenarios", PyVal.str "p"), ("quiz_toggle", PyVal.list [])]) =
      Except.ok false :=
  ⟨⟨by decide, rfl, by decide⟩,
    c6_validator_rejects_bad_vocabulary _ (PyVal.list []) (by decide) rfl (by decide)⟩

/-- C7: for every parsed object passing the earlier rules (all four keys
present, `vocabulary_focus` a non-empty list of valid items), the Validator
accepts an empty `quiz_toggle` sequence, and rejects the object whenever
`quiz_toggle` is not a sequence or contains an element that is not a keyed
record carrying both `question` and `answer`. -/
theorem c7_quiz_toggle_rules (entries : List (String × PyVal)) (vitems : List PyVal)
    (hkeys : ∀ k ∈ requiredKeys, hasKey entries k = true)
    (hvf : lookupKey entries "vocabulary_focus" = Option.some (PyVal.list vitems))
    (hne : vitems.isEmpty = false)
    (hall : vitems.all vocabItemOk = true) :
    (lookupKey entries "quiz_toggle" = Option.some (PyVal.list []) →
      validate_response_data (PyVal.dict entries) = Except.ok true) ∧
    (∀ q, lookupKey entries "quiz_toggle" = Option.some q → quizBad q = true →
      validate_response_data (PyVal.dict entries) = Except.ok false) := by
  have hbase : validate_response_data (PyVal.dict entries) =
      Except.ok (validateDict entries) :=
    validate_dict_checked entries (checkRequiredKeys_dict_all entries requiredKeys hkeys)
  constructor
  · intro hq
    rw [hbase]
    have : validateDict entries = true := by
      unfold validateDict
      rw [hvf, Option.getD_some, hq, Option.getD_some]
      simp [hne, hall]
    rw [this]
  · intro q hq hbad
    rw [hbase]
    have : validateDict entries = false := by
      unfold validateDict
      rw [hvf, Option.getD_some]
      simp only [hne, Bool.false_eq_true, if_false, hall, if_true]
      rw [hq, Option.getD_some]
      cases q with
      | list qitems =>
        have : qitems.all quizItemOk = false := by simpa [quizBad] using hbad
        simpa using this
      | null => rfl
      | bool b => rfl
      | int n => rfl
      | str s => rfl
      | dict d => rfl
    rw [this]

/-- Entries of a fully valid object whose quiz list is empty. -/
def entriesQuizEmpty : List (String × PyVal) :=
  [("theme", PyVal.str "T"),
   ("vocabulary_focus", PyVal.list [PyVal.dict [("concept", PyVal.str "c"), ("expressions", PyVal.str "e")]]),
   ("practice_scenarios", PyVal.str "p"),
   ("quiz_toggle", PyVal.list [])]

/-- Entries identical to `entriesQuizEmpty` except that `quiz_toggle` is
not a sequence. -/
def entriesQuizNotList : List (String × PyVal) :=
  [("theme", PyVal.str "T"),
   ("vocabulary_focus", PyVal.list [PyVal.dict [("concept", PyVal.str "c"), ("expressions", PyVal.str "e")]]),
   ("practice_scenarios", PyVal.str "p"),
   ("quiz_toggle", PyVal.int 3)]

/-- C7 witness: with the earlier rules satisfied, an empty quiz list is
accepted and a non-sequence quiz field is rejected. -/
theorem c7_witness :
    validate_response_data (PyVal.dict entriesQuizEmpty) = Except.ok true ∧
    validate_response_data (PyVal.dict entriesQuizNotList) = Except.ok false :=
  ⟨(c7_quiz_toggle_rules entriesQuizEmpty
      [PyVal.dict [("concept", PyVal.str "c"), ("expressions", PyVal.str "e")]]
      (by decide) rfl (by decide) (by decide)).1 rfl,
   (c7_quiz_toggle_rules entriesQuizNotList
      [PyVal.dict [("concept", PyVal.str "c"), ("expressions", PyVal.str "e")]]
      (by decide) rfl (by decide) (by decide)).2 (PyVal.int 3) rfl (by decide)⟩

/-- C2 counterexample: the candidate obtained by truncating only the
trailing closers of the well-formed object whose text reads
open-brace "a":[1] close-brace is repaired by the balancing step into text
that appends the brace before the bracket and therefore fails to parse
(both through the balancing step alone and through the full cleanup). -/
theorem c2_counterexample :
    parseJsonL "\x7b\"a\":[1]\x7d".data =
      Option.some (PyVal.dict [("a", PyVal.list [PyVal.int 1])]) ∧
    ("\x7b\"a\":[1" ++ "]\x7d" : String) = "\x7b\"a\":[1]\x7d" ∧
    balanceBrackets "\x7b\"a\":[1" = "\x7b\"a\":[1\x7d]" ∧
    parseJsonL (balanceBrackets "\x7b\"a\":[1").data = Option.none ∧
    parseJsonL (clean_json_text "\x7b\"a\":[1").data = Option.none :=
  ⟨rfl, by decide, by decide, rfl, rfl⟩

/-- C2 amended: the balancing repair yields a successful parse exactly on
those truncations whose missing closers are a run of closing braces
followed by a run of closing brackets (the order in which the repair
appends).  Formally: if the candidate becomes parseable JSON after
appending `a` closing braces and then `b` closing brackets, and its brace
and bracket counts are deficient by exactly `a` and `b`, then the repair
produces that parseable text. -/
theorem c2_amended_balancing_repair (l : List Char) (a b : Nat) (v : PyVal)
    (hb : l.count obrace = l.count cbrace + a)
    (hk : l.count '[' = l.count ']' + b)
    (hv : parseJsonL ((l ++ List.replicate a cbrace) ++ List.replicate b ']') = Option.some v) :
    parseJsonL (balanceBracketsL l) = Option.some v := by
  rw [balanceBracketsL_closed_form l a b hb hk]
  exact hv

/-- C2 witness: a candidate truncated after the value of its only key,
missing one closing brace and no bracket, is repaired into a parseable
object. -/
theorem c2_witness :
    ("\x7b\"a\": 1".data.count obrace = "\x7b\"a\": 1".data.count cbrace + 1 ∧
     "\x7b\"a\": 1".data.count '[' = "\x7b\"a\": 1".data.count ']' + 0 ∧
     parseJsonL (("\x7b\"a\": 1".data ++ List.replicate 1 cbrace) ++ List.replicate 0 ']') =
       Option.some (PyVal.dict [("a", PyVal.int 1)])) ∧
    parseJsonL (balanceBracketsL "\x7b\"a\": 1".data) =
      Option.some (PyVal.dict [("a", PyVal.int 1)]) :=
  ⟨⟨by decide, by decide, rfl⟩,
    c2_amended_balancing_repair "\x7b\"a\": 1".data 1 0
      (PyVal.dict [("a", PyVal.int 1)]) (by decide) (by decide) rfl⟩

/-- C4 counterexample: for day 15 and the rotation work, life, tech the
Theme Selector returns the label "Office Communication" derived from
"work" (15 mod 3 = 0), not "tech" as the claim asserts. -/
theorem c4_counterexample :
    select_daily_theme 15 THEME_ROTATION = "Office Communication" ∧
    ¬ select_daily_theme 15 THEME_ROTATION = "tech" :=
  ⟨by decide, by decide⟩

/-- C4 amended: the Theme Selector is a pure function of the day of month
and the rotation list, computing `index = day mod length(rotation)`,
picking `rotation[index]`, trimming whitespace and mapping known short
codes through the fixed lookup; in particular for day 15 and rotation
work, life, tech it returns "Office Communication" (the label of "work",
since 15 mod 3 = 0). -/
theorem c4_amended_theme_selector :
    (∀ (day : Nat) (rotation : List String), rotation ≠ [] →
      select_daily_theme day rotation = themeSelectSpec day rotation) ∧
    select_daily_theme 15 THEME_ROTATION = "Office Communication" :=
  ⟨fun _ _ _ => rfl, by decide⟩

/-- C4 witness: the selector agrees with the spec-worded arithmetic at day
15 on the default rotation and yields the label of "work". -/
theorem c4_witness :
    THEME_ROTATION ≠ [] ∧
    select_daily_theme 15 THEME_ROTATION = themeSelectSpec 15 THEME_ROTATION ∧
    select_daily_theme 15 THEME_ROTATION = "Office Communication" :=
  ⟨by decide, c4_amended_theme_selector.1 15 THEME_ROTATION (by decide),
    c4_amended_theme_selector.2⟩

/-- C3 counterexample: the raw text `textSentinelEllipsis` carries the
well-formed JSON object with the single pair a : "..." between the
sentinel markers, yet the Extractor returns the object with the pair
a : "" — the cleanup pass deleted the three-dot sequence inside the string
value, so the returned object is not the one between the markers. -/
theorem c3_counterexample :
    parseJsonL (pyStrip "\x7b\"a\": \"...\"\x7d".data) =
      Option.some (PyVal.dict [("a", PyVal.str "...")]) ∧
    extract_json_from_response textSentinelEllipsis =
      Option.some (PyVal.dict [("a", PyVal.str "")]) ∧
    (Option.some (PyVal.dict [("a", PyVal.str "")]) : Option PyVal) ≠
      Option.some (PyVal.dict [("a", PyVal.str "...")]) :=
  ⟨rfl, rfl, by simp⟩

/-- C3 amended: for raw text of the form prose, start marker, JSON
candidate, end marker, prose — where the first occurrences of the markers
are the sentinel ones — the Extractor returns exactly the object parsed
from the (stripped) candidate, provided the candidate contains no backtick
and is left unchanged by the cleanup pass (no code fences, curly quotes,
ellipsis sequences, commas directly or across whitespace before a closing
brace or bracket, control characters or unbalanced braces).  When the
cleanup pass does alter the candidate, the returned object is the parse of
the cleaned text instead.  The backtick-free side condition makes the
fence passes vacuous, so none of the hypotheses touches the language-tag
class of the fence regex. -/
theorem c3_amended_sentinel_extraction (p q j : List Char) (v : PyVal)
    (hs : findSub (p ++ startMarker ++ j ++ endMarker ++ q) startMarker = Option.some p.length)
    (he : findSub (p ++ startMarker ++ j ++ endMarker ++ q) endMarker =
      Option.some (p.length + startMarker.length + j.length))
    (_hnb : ¬ backtick ∈ pyStrip j)
    (hclean : cleanJsonTextL (pyStrip j) = pyStrip j)
    (hv : parseJsonL (pyStrip j) = Option.some v) :
    extractJsonL (p ++ startMarker ++ j ++ endMarker ++ q) = Option.some v := by
  unfold extractJsonL
  rw [hs, he]
  have hslice : pySlice (p ++ startMarker ++ j ++ endMarker ++ q)
      (p.length + startMarker.length) (p.length + startMarker.length + j.length) = j := by
    unfold pySlice
    have h1 : p ++ startMarker ++ j ++ endMarker ++ q =
        (p ++ startMarker) ++ (j ++ (endMarker ++ q)) := by
      simp [List.append_assoc]
    have h2 : (p ++ startMarker).length = p.length + startMarker.length := by
      simp
    have h3 : p.length + startMarker.length + j.length -
        (p.length + startMarker.length) = j.length := by
      omega
    rw [h1, h3, ← h2, List.drop_left]
    exact List.take_left j (endMarker ++ q)
  show parseJsonL (cleanJsonTextL (pyStrip (pySlice (p ++ startMarker ++ j ++ endMarker ++ q)
    (p.length + startMarker.length) (p.length + startMarker.length + j.length)))) = Option.some v
  rw [hslice, hclean, hv]

/-- C3 witness: prose-wrapped sentinel-delimited clean JSON is extracted
exactly. -/
theorem c3_witness :
    (findSub ("ok ".data ++ startMarker ++ "\x7b\"a\": 1\x7d".data ++ endMarker ++ " bye".data)
        startMarker = Option.some ("ok ".data).length ∧
      findSub ("ok ".data ++ startMarker ++ "\x7b\"a\": 1\x7d".data ++ endMarker ++ " bye".data)
        endMarker =
        Option.some (("ok ".data).length + startMarker.length + ("\x7b\"a\": 1\x7d".data).length) ∧
      ¬ backtick ∈ pyStrip "\x7b\"a\": 1\x7d".data ∧
      cleanJsonTextL (pyStrip "\x7b\"a\": 1\x7d".data) = pyStrip "\x7b\"a\": 1\x7d".data ∧
      parseJsonL (pyStrip "\x7b\"a\": 1\x7d".data) =
        Option.some (PyVal.dict [("a", PyVal.int 1)])) ∧
    extractJsonL ("ok ".data ++ startMarker ++ "\x7b\"a\": 1\x7d".data ++ endMarker ++ " bye".data) =
      Option.some (PyVal.dict [("a", PyVal.int 1)]) :=
  ⟨⟨rfl, rfl, by decide, rfl, rfl⟩,
    c3_amended_sentinel_extraction "ok ".data " bye".data "\x7b\"a\": 1\x7d".data
      (PyVal.dict [("a", PyVal.int 1)]) rfl rfl (by decide) rfl rfl⟩

/-- C8: for every invocation (every oracle of model responses), the
orchestrator returns either a fully validated content object or the
explicit no-content result `None`; the embedding is a total function into
an `Option` result, with every internal failure (including validator
exceptions, modelled as `Except.error`) translated into `None`, so no
exception propagates to the caller. -/
theorem c8_total_no_content_or_valid (oracle : Nat → Option String) :
    (generate_daily_content oracle).1 = Option.none ∨
    ∃ v, (generate_daily_content oracle).1 = Option.some v ∧
      validate_response_data v = Except.ok true := by
  unfold generate_daily_content
  rcases halp : attemptLoop oracle [1, 2, 3] Option.none [] with ⟨data, tr⟩
  cases data with
  | none => left; rfl
  | some v =>
    by_cases ht : pyTruthy v = true
    · simp only [ht, if_true]
      cases hval : validate_response_data v with
      | error e => left; simp [hval]
      | ok b =>
        cases b with
        | true => right; exact ⟨v, by simp [hval], hval⟩
        | false => left; simp [hval]
    · left
      simp [ht]

/-- C9: for every invocation, the model calls recorded in the trace are an
initial segment of attempts 1, 2, 3 with temperatures 0.7, 0, 0 — attempt
1 uses the nominal temperature and attempts 2 and 3 use zero. -/
theorem c9_temperature_schedule (oracle : Nat → Option String) :
    ∃ k, modelCalls (generate_daily_content oracle).2 =
      [(1, (7 : ℚ) / 10), (2, 0), (3, 0)].take k := by
  obtain ⟨k, hk⟩ := attemptLoop_modelCalls oracle [1, 2, 3] Option.none []
  have hmap : ([1, 2, 3].map (fun n => (n, tempForAttempt n))) =
      [(1, (7 : ℚ) / 10), (2, 0), (3, 0)] := rfl
  rw [hmap] at hk
  refine ⟨k, ?_⟩
  unfold generate_daily_content
  rcases halp : attemptLoop oracle [1, 2, 3] Option.none [] with ⟨data, tr⟩
  rw [halp] at hk
  cases data with
  | none => simpa using hk
  | some v =>
    by_cases ht : pyTruthy v = true
    · simp only [ht, if_true]
      cases hval : validate_response_data v with
      | error e =>
        simp only [hval]
        rw [modelCalls_append,
          show modelCalls [Event.validatorCalled v] = [] from rfl, List.append_nil]
        simpa using hk
      | ok b =>
        cases b with
        | true =>
          simp only [hval]
          rw [modelCalls_append,
            show modelCalls [Event.validatorCalled v] = [] from rfl, List.append_nil]
          simpa using hk
        | false =>
          simp only [hval]
          rw [modelCalls_append,
            show modelCalls [Event.validatorCalled v] = [] from rfl, List.append_nil]
          simpa using hk
    · simp only [ht]
      simpa using hk

theorem gdc_trace_extends (oracle : Nat → Option String) (e : Event)
    (h : e ∈ (attemptLoop oracle [1, 2, 3] Option.none []).2) :
    e ∈ (generate_daily_content oracle).2 := by
  unfold generate_daily_content
  rcases halp : attemptLoop oracle [1, 2, 3] Option.none [] with ⟨data, tr⟩
  rw [halp] at h
  cases data with
  | none => exact h
  | some v =>
    by_cases ht : pyTruthy v = true
    · simp only [ht, if_true]
      cases hval : validate_response_data v with
      | error e2 => simp only [hval]; exact List.mem_append_left _ h
      | ok b =>
        cases b with
        | true => simp only [hval]; exact List.mem_append_left _ h
        | false => simp only [hval]; exact List.mem_append_left _ h
    · simp only [ht]
      simpa using h

theorem gdc_validatorCalled_truthy (oracle : Nat → Option String) (v : PyVal)
    (h : Event.validatorCalled v ∈ (generate_daily_content oracle).2) :
    pyTruthy v = true := by
  unfold generate_daily_content at h
  rcases halp : attemptLoop oracle [1, 2, 3] Option.none [] with ⟨data, tr⟩
  rw [halp] at h
  have hnotr : Event.validatorCalled v ∉ tr := by
    intro hmem
    have h2 : Event.validatorCalled v ∈ (attemptLoop oracle [1, 2, 3] Option.none []).2 := by
      rw [halp]; exact hmem
    have h3 := attemptLoop_no_validatorCalled oracle v [1, 2, 3] Option.none [] h2
    simp at h3
  cases data with
  | none => exact absurd h hnotr
  | some w =>
    by_cases ht : pyTruthy w = true
    · simp only [ht, if_true] at h
      have hsplit : Event.validatorCalled v ∈ tr ++ [Event.validatorCalled w] := by
        cases hval : validate_response_data w with
        | error e2 => rw [hval] at h; exact h
        | ok b =>
          cases b with
          | true => rw [hval] at h; exact h
          | false => rw [hval] at h; exact h
      rcases List.mem_append.mp hsplit with h4 | h4
      · exact absurd h4 hnotr
      · simp at h4
        rw [h4]
        exact ht
    · simp only [ht] at h
      exact absurd (by simpa using h) hnotr

set_option maxRecDepth 4000 in
/-- C1 counterexample: attempt 1 extracts to a truthy object that the
Validator rejects while attempt 2 would return fully valid content, yet
the orchestrator returns `None` and never makes a second model call — a
validation failure is not treated as an extraction failure for retry
purposes. -/
theorem c1_counterexample :
    extract_json_from_response badText = Option.some badVal ∧
    pyTruthy badVal = true ∧
    validate_response_data badVal = Except.ok false ∧
    extract_json_from_response goodText = Option.some goodVal ∧
    validate_response_data goodVal = Except.ok true ∧
    (generate_daily_content oracleInvalidThenValid).1 = Option.none ∧
    Event.modelCall 2 0 ∉ (generate_daily_content oracleInvalidThenValid).2 := by
  refine ⟨rfl, rfl, rfl, rfl, rfl, rfl, ?_⟩
  have htr : (generate_daily_content oracleInvalidThenValid).2 =
      [Event.modelCall 1 ((7 : ℚ) / 10), Event.validatorCalled badVal] := rfl
  rw [htr]
  simp

/-- C1 amended: when an attempt's raw text extracts to a truthy parsed
object that the Schema Validator rejects, the orchestrator logs, discards
the object and returns the no-content result immediately — the invalid
object is never returned, but no further attempt is made (the retry budget
applies to extraction failures only; here shown for a first-attempt
rejection, whose trace ends after exactly one model call). -/
theorem c1_amended_validation_failure_stops (oracle : Nat → Option String)
    (t : String) (v : PyVal)
    (h1 : oracle 1 = Option.some t) (h2 : ¬ t = "")
    (h3 : extract_json_from_response t = Option.some v)
    (h4 : pyTruthy v = true)
    (h5 : validate_response_data v = Except.ok false) :
    (generate_daily_content oracle).1 = Option.none ∧
    (generate_daily_content oracle).2 =
      [Event.modelCall 1 ((7 : ℚ) / 10), Event.validatorCalled v] := by
  have hd : pyTruthyOpt (extract_json_from_response t) = true := by
    rw [h3]; exact h4
  have hloop : attemptLoop oracle [1, 2, 3] Option.none [] =
      (Option.some v, [Event.modelCall 1 (tempForAttempt 1)]) := by
    rw [attemptLoop_cons_truthy oracle 1 [2, 3] Option.none [] t h1 h2 hd, h3]
    simp
  unfold generate_daily_content
  rw [hloop]
  simp only [h4, if_true, h5]
  exact ⟨trivial, rfl⟩

/-- C1 witness: a first attempt whose object lacks the required keys makes
the orchestrator stop with `None` after one model call. -/
theorem c1_witness :
    (oracleInvalidOnly 1 = Option.some badText ∧ badText ≠ "" ∧
      extract_json_from_response badText = Option.some badVal ∧
      pyTruthy badVal = true ∧ validate_response_data badVal = Except.ok false) ∧
    ((generate_daily_content oracleInvalidOnly).1 = Option.none ∧
      (generate_daily_content oracleInvalidOnly).2 =
        [Event.modelCall 1 ((7 : ℚ) / 10), Event.validatorCalled badVal]) :=
  ⟨⟨rfl, by decide, rfl, rfl, rfl⟩,
    c1_amended_validation_failure_stops oracleInvalidOnly badText badVal
      rfl (by decide) rfl rfl rfl⟩

/-- C10: when an attempt's response extracts and parses to the empty JSON
object, the orchestrator treats it as an extraction failure: it saves the
raw response, appends the strict-JSON instruction for the next attempt,
makes the next model call, and never passes the empty object to the
Validator nor returns it. -/
theorem c10_empty_object_is_extraction_failure (oracle : Nat → Option String) (t : String)
    (h1 : oracle 1 = Option.some t) (h2 : ¬ t = "")
    (h3 : extract_json_from_response t = Option.some (PyVal.dict [])) :
    Event.savedRaw t ∈ (generate_daily_content oracle).2 ∧
    Event.promptStrengthened ∈ (generate_daily_content oracle).2 ∧
    Event.modelCall 2 0 ∈ (generate_daily_content oracle).2 ∧
    Event.validatorCalled (PyVal.dict []) ∉ (generate_daily_content oracle).2 ∧
    (generate_daily_content oracle).1 ≠ Option.some (PyVal.dict []) := by
  have hd : pyTruthyOpt (extract_json_from_response t) = false := by
    rw [h3]; rfl
  have hstep : attemptLoop oracle [1, 2, 3] Option.none [] =
      attemptLoop oracle [2, 3] (Option.some (PyVal.dict []))
        (([] ++ [Event.modelCall 1 (tempForAttempt 1)]) ++
          [Event.savedRaw t, Event.promptStrengthened]) := by
    rw [attemptLoop_cons_falsy oracle 1 [2, 3] Option.none [] t h1 h2 hd, h3]
  refine ⟨?_, ?_, ?_, ?_, ?_⟩
  · apply gdc_trace_extends
    rw [hstep]
    apply attemptLoop_trace_mono
    simp
  · apply gdc_trace_extends
    rw [hstep]
    apply attemptLoop_trace_mono
    simp
  · apply gdc_trace_extends
    rw [hstep]
    exact attemptLoop_head_modelCall oracle 2 [3] _ _
  · intro h
    have := gdc_validatorCalled_truthy oracle (PyVal.dict []) h
    simp [pyTruthy] at this
  · intro h
    have := gdc_some_truthy oracle (PyVal.dict []) h
    simp [pyTruthy] at this

/-- C10 witness: a first attempt answering exactly the empty object is
saved, strengthens the prompt, and the loop advances to attempt 2. -/
theorem c10_witness :
    (oracleEmptyObject 1 = Option.some "\x7b\x7d" ∧ ("\x7b\x7d" : String) ≠ "" ∧
      extract_json_from_response "\x7b\x7d" = Option.some (PyVal.dict [])) ∧
    (Event.savedRaw "\x7b\x7d" ∈ (generate_daily_content oracleEmptyObject).2 ∧
      Event.promptStrengthened ∈ (generate_daily_content oracleEmptyObject).2 ∧
      Event.modelCall 2 0 ∈ (generate_daily_content oracleEmptyObject).2 ∧
      Event.validatorCalled (PyVal.dict []) ∉ (generate_daily_content oracleEmptyObject).2 ∧
      (generate_daily_content oracleEmptyObject).1 ≠ Option.some (PyVal.dict [])) :=
  ⟨⟨rfl, by decide, rfl⟩,
    c10_empty_object_is_extraction_failure oracleEmptyObject "\x7b\x7d"
      rfl (by decide) rfl⟩
